import Mathlib

/-!
# Verification of the email-metrics ingestion pipeline

Shallow embedding of the core of the `email-metrics` repository:

* the relational data model of `src/shared/schema.ts` (tables `employees`,
  `emails`, `email_analysis`, `tasks`, with the declared unique constraints),
* the persistence layer `src/lib/storage.ts` (`DatabaseStorage`),
* the sync orchestrator `src/api/emails/sync.ts` (`syncHandler`),
* the task status endpoint `src/api/tasks/[id]/status.ts` (`taskStatusHandler`),
* the sentiment aggregation `DatabaseStorage.getSentimentAnalytics`.

Modelling conventions:

* Timestamps (ISO datetime strings fed to `new Date(...)`) are modelled by
  their epoch value as an `Int`; `receivedAt` ordering is ordering on that
  value.  `confidence` / `confidenceScore` (JS numbers in [0,1]) are
  modelled as `ℚ`.
* The external calls (Microsoft Graph, the OpenAI chat completion) and
  injected storage failures are oracles passed to the handler; a throwing
  call is an `Except.error` / a `Bool` fault flag.
* A database `INSERT` that violates a declared `unique` constraint
  (`emails.message_id`, `email_analysis.email_id` in `schema.ts`) fails:
  the corresponding `create*` operation returns `none` and the row is not
  inserted.  All other storage operations are total.
* Each table is a list of rows in insertion order; `serial` primary keys
  are modelled by `next*Id` counters.
-/

namespace EmailMetrics

/-! ## Data model (`src/shared/schema.ts`) -/

/-- A row of the `employees` table (the fields the pipeline touches).
`organizationId` is a nullable foreign key, `lastSync` a nullable
timestamp. -/
structure Employee where
  id : Nat
  organizationId : Option Nat := none
  email : String := ""
  lastSync : Option Int := none
deriving Repr, DecidableEq

/-- A row of the `emails` table.  `message_id` carries a `unique`
constraint in `schema.ts`. -/
structure Email where
  id : Nat
  messageId : String
  conversationId : Option String := none
  senderId : Nat
  subject : Option String := none
  bodyPreview : Option String := none
  receivedAt : Int
  isRead : Bool := false
  importance : Option String := none
  hasAttachments : Bool := false
deriving Repr, DecidableEq

/-- A row of the `email_analysis` table.  `email_id` carries a `unique`
constraint; `sentiment` is a text column (documented values: positive,
negative, neutral). -/
structure EmailAnalysis where
  id : Nat
  emailId : Nat
  sentiment : String
  urgencyScore : Int
  topics : List String := []
  actionItems : List String := []
  aiSummary : String := ""
  processingVersion : String := ""
deriving Repr, DecidableEq

/-- A row of the `tasks` table (the fields the pipeline touches). -/
structure Task where
  id : Nat
  title : String
  description : String := ""
  assignedToId : Nat
  status : String
  priority : String := ""
  dueDate : Option Int := none
  confidenceScore : ℚ
  sourceEmailId : Nat
  updatedAt : Int := 0
deriving Repr, DecidableEq

/-- The database state: one list of rows per table (in insertion order)
plus the `serial` id counters. -/
structure DB where
  employees : List Employee := []
  emails : List Email := []
  analyses : List EmailAnalysis := []
  tasks : List Task := []
  nextEmailId : Nat := 1
  nextAnalysisId : Nat := 1
  nextTaskId : Nat := 1
deriving Repr

/-- The `messageId` column of the `emails` table, in row order. -/
def DB.messageIds (db : DB) : List String :=
  db.emails.map (fun e => e.messageId)

/-! ## Insert shapes (the `Insert*` types of `schema.ts`) -/

/-- Argument record of `storage.createEmail`. -/
structure InsertEmail where
  messageId : String
  conversationId : Option String
  senderId : Nat
  subject : Option String
  bodyPreview : Option String
  receivedAt : Int
  isRead : Bool
  importance : Option String
  hasAttachments : Bool
deriving Repr, DecidableEq

/-- Argument record of `storage.createEmailAnalysis`. -/
structure InsertEmailAnalysis where
  emailId : Nat
  sentiment : String
  urgencyScore : Int
  topics : List String
  actionItems : List String
  aiSummary : String
  processingVersion : String
deriving Repr, DecidableEq

/-- Argument record of `storage.createTask`. -/
structure InsertTask where
  title : String
  description : String
  assignedToId : Nat
  status : String
  priority : String
  dueDate : Option Int
  confidenceScore : ℚ
  sourceEmailId : Nat
deriving Repr, DecidableEq

/-! ## Persistence layer (`src/lib/storage.ts`, `DatabaseStorage`) -/

/-- Insert an email into a list sorted by `receivedAt` descending (the
`orderBy(desc(emails.receivedAt))` of `getEmailsByEmployee`); SQL leaves
the relative order of equal timestamps unspecified, this model fixes one
deterministic choice. -/
def insertReceivedDesc (e : Email) : List Email → List Email
  | [] => [e]
  | x :: xs => if e.receivedAt ≤ x.receivedAt then x :: insertReceivedDesc e xs
               else e :: x :: xs

/-- Sort a list of emails by `receivedAt` descending. -/
def sortReceivedDesc : List Email → List Email
  | [] => []
  | x :: xs => insertReceivedDesc x (sortReceivedDesc xs)

/-- `DatabaseStorage.getEmailsByEmployee(employeeId, limit = 50)`: the
caller's emails (`senderId = employeeId`) ordered by `receivedAt`
descending, limited to `limit` rows. -/
def getEmailsByEmployee (db : DB) (employeeId : Nat) (limit : Nat := 50) :
    List Email :=
  (sortReceivedDesc (db.emails.filter (fun e => e.senderId == employeeId))).take limit

/-- `DatabaseStorage.createEmail`: INSERT into `emails`.  Fails (throws in
the source; `none` here) when the `unique` constraint on `message_id`
is violated. -/
def createEmail (db : DB) (row : InsertEmail) : Option (DB × Email) :=
  if db.emails.any (fun e => e.messageId == row.messageId) then
    none
  else
    let e : Email :=
      { id := db.nextEmailId
        messageId := row.messageId
        conversationId := row.conversationId
        senderId := row.senderId
        subject := row.subject
        bodyPreview := row.bodyPreview
        receivedAt := row.receivedAt
        isRead := row.isRead
        importance := row.importance
        hasAttachments := row.hasAttachments }
    some ({ db with emails := db.emails ++ [e], nextEmailId := db.nextEmailId + 1 }, e)

/-- `DatabaseStorage.createEmailAnalysis`: INSERT into `email_analysis`.
Fails when the `unique` constraint on `email_id` is violated. -/
def createEmailAnalysis (db : DB) (row : InsertEmailAnalysis) :
    Option (DB × EmailAnalysis) :=
  if db.analyses.any (fun a => a.emailId == row.emailId) then
    none
  else
    let a : EmailAnalysis :=
      { id := db.nextAnalysisId
        emailId := row.emailId
        sentiment := row.sentiment
        urgencyScore := row.urgencyScore
        topics := row.topics
        actionItems := row.actionItems
        aiSummary := row.aiSummary
        processingVersion := row.processingVersion }
    some ({ db with analyses := db.analyses ++ [a],
                    nextAnalysisId := db.nextAnalysisId + 1 }, a)

/-- `DatabaseStorage.createTask`: INSERT into `tasks` (no unique
constraint besides the primary key). -/
def createTask (db : DB) (row : InsertTask) : DB × Task :=
  let t : Task :=
    { id := db.nextTaskId
      title := row.title
      description := row.description
      assignedToId := row.assignedToId
      status := row.status
      priority := row.priority
      dueDate := row.dueDate
      confidenceScore := row.confidenceScore
      sourceEmailId := row.sourceEmailId }
  ({ db with tasks := db.tasks ++ [t], nextTaskId := db.nextTaskId + 1 }, t)

/-- `DatabaseStorage.updateTaskStatus`: UPDATE `tasks` SET status,
updatedAt WHERE id = taskId.  Rows with a non-matching id are untouched;
zero matching rows means zero rows affected. -/
def updateTaskStatus (db : DB) (taskId : Nat) (status : String) (now : Int) : DB :=
  { db with tasks := db.tasks.map (fun t =>
      if t.id == taskId then { t with status := status, updatedAt := now } else t) }

/-- `DatabaseStorage.updateEmployeeLastSync`: UPDATE `employees` SET
last_sync = now() WHERE id = employeeId. -/
def updateEmployeeLastSync (db : DB) (employeeId : Nat) (now : Int) : DB :=
  { db with employees := db.employees.map (fun e =>
      if e.id == employeeId then { e with lastSync := some now } else e) }

/-! ## Mail client adapter types (`src/server/services/graph-service.ts`) -/

/-- A message as returned by the Graph API (`GraphEmailMessage`).
Optional fields are `Option`; `receivedDateTime` is the epoch value of
the ISO string. -/
structure GraphEmailMessage where
  id : String
  subject : Option String := none
  bodyPreview : Option String := none
  receivedDateTime : Int
  senderAddress : Option String := none
  toRecipients : List String := []
  importance : Option String := none
  hasAttachments : Option Bool := none
  conversationId : Option String := none
  isRead : Option Bool := none
deriving Repr, DecidableEq

/-- The authenticated Graph user (`GraphUser`); all fields optional. -/
structure GraphUser where
  id : Option String := none
  mail : Option String := none
deriving Repr, DecidableEq

/-! ## Annotation service types (`openai-service.ts`) -/

/-- The four sentiment labels the AI service's `TaskExtractionResult`
interface declares. -/
inductive Sentiment
  | positive
  | negative
  | neutral
  | urgent
deriving Repr, DecidableEq

/-- The text form of a sentiment label. -/
def Sentiment.label : Sentiment → String
  | .positive => "positive"
  | .negative => "negative"
  | .neutral => "neutral"
  | .urgent => "urgent"

/-- One task extracted by the LLM (`TaskExtractionResult.tasks[i]`). -/
structure ExtractedTask where
  title : String
  description : String := ""
  assignedTo : Option String := none
  dueDate : Option Int := none
  priority : String := "medium"
  category : String := "follow-up"
  confidence : ℚ
deriving Repr, DecidableEq

/-- The structured result of `AIAnalysisService.extractTasks`
(`TaskExtractionResult`). -/
structure TaskExtractionResult where
  tasks : List ExtractedTask := []
  summary : String := ""
  sentiment : Sentiment
  urgencyScore : Int := 0
  keyTopics : List String := []
  actionRequired : Bool := false
deriving Repr, DecidableEq

/-! ## Sync orchestrator (`src/api/emails/sync.ts`) -/

/-- JS truthiness of an optional string: `undefined`, `null` and the
empty string are falsy. -/
def truthy : Option String → Bool
  | none => false
  | some s => !(s == "")

/-- The sentiment value the handler persists:
`analysis.sentiment === 'urgent' ? 'neutral' : analysis.sentiment`. -/
def storedSentiment (s : Sentiment) : String :=
  if s = Sentiment.urgent then "neutral" else s.label

/-- Failure environment for one sync call: the outcome of the LLM call
per message, and injected storage failures (a thrown `createEmail` /
`createEmailAnalysis`, e.g. a connection error), per message. -/
structure SyncFaults where
  annotate : GraphEmailMessage → Except Unit TaskExtractionResult
  createEmailFails : GraphEmailMessage → Bool := fun _ => false
  createAnalysisFails : GraphEmailMessage → Bool := fun _ => false

/-- The `for (const task of analysis.tasks)` loop: persist each
extracted task with `confidence > 0.7`, discarding the rest. -/
def persistTasks (userId emailId : Nat) (db : DB) :
    List ExtractedTask → DB
  | [] => db
  | t :: ts =>
    if t.confidence > 0.7 then
      persistTasks userId emailId
        (createTask db
          { title := t.title
            description := t.description
            assignedToId := userId
            status := "identified"
            priority := t.priority
            dueDate := t.dueDate
            confidenceScore := t.confidence
            sourceEmailId := emailId }).1 ts
    else
      persistTasks userId emailId db ts

/-- The inner `try` block of the sync loop: call the LLM, persist the
analysis row (sentiment remapped by `storedSentiment`), persist the
gated tasks.  Any failure inside (LLM call, analysis insert) is caught
by the inner `catch`, leaving the state as it was after the email
insert. -/
def aiPhase (f : SyncFaults) (userId : Nat) (m : GraphEmailMessage)
    (db1 : DB) (email : Email) : DB :=
  match f.annotate m with
  | Except.error _ => db1
  | Except.ok analysis =>
    if f.createAnalysisFails m then db1
    else
      match createEmailAnalysis db1
        { emailId := email.id
          sentiment := storedSentiment analysis.sentiment
          urgencyScore := analysis.urgencyScore
          topics := analysis.keyTopics
          actionItems := analysis.tasks.map (fun t => t.title)
          aiSummary := analysis.summary
          processingVersion := "1.0" } with
      | none => db1
      | some (db2, _) => persistTasks userId email.id db2 analysis.tasks

/-- One iteration of the `for (const graphEmail of graphEmails)` loop.
Returns the new database state and the email pushed onto
`processedEmails` (`none` when the message was skipped or its outer
`try` failed and was swallowed). -/
def processGraphEmail (f : SyncFaults) (userId : Nat) (db : DB)
    (m : GraphEmailMessage) : DB × Option Email :=
  let existingEmail := getEmailsByEmployee db userId 1
  let emailExists := existingEmail.any (fun e => e.messageId == m.id)
  if emailExists then (db, none)
  else if f.createEmailFails m then (db, none)
  else
    match createEmail db
      { messageId := m.id
        conversationId := m.conversationId
        senderId := userId
        subject := m.subject
        bodyPreview := m.bodyPreview
        receivedAt := m.receivedDateTime
        isRead := m.isRead.getD false
        importance := m.importance
        hasAttachments := m.hasAttachments.getD false } with
    | none => (db, none)
    | some (db1, email) =>
      let db2 :=
        if truthy m.bodyPreview && truthy m.subject then
          aiPhase f userId m db1 email
        else db1
      (db2, some email)

/-- The whole message loop: fold `processGraphEmail` over the fetched
page, collecting `processedEmails`. -/
def syncLoop (f : SyncFaults) (userId : Nat) (db : DB) :
    List GraphEmailMessage → DB × List Email
  | [] => (db, [])
  | m :: rest =>
    let step := processGraphEmail f userId db m
    let restRes := syncLoop f userId step.1 rest
    (restRes.1,
     (match step.2 with
      | some e => [e]
      | none => []) ++ restRes.2)

/-- The request as `syncHandler` sees it (after `withAuth`). -/
structure SyncRequest where
  method : String
  accessToken : Option String
deriving Repr, DecidableEq

/-- The handler's response. -/
inductive SyncResponse
  | corsPreflight
  | ok (processedCount totalFetched : Nat)
  | err (status : Nat) (message : String)
deriving Repr, DecidableEq

/-- `syncHandler`:  CORS preflight, method check, access-token check,
fetch the Graph user and the first page of (at most) 50 messages, run
the loop, update the employee's last-sync time, respond with
`{processedCount, totalFetched}`.  `getCurrentUser` and `getUserEmails`
are the two Graph calls (the latter takes the user id, `top` and `skip`);
a failed fetch is a thrown error and yields the outer 500. -/
def syncHandler (f : SyncFaults)
    (getCurrentUser : Except Unit GraphUser)
    (getUserEmails : String → Nat → Nat → Except Unit (List GraphEmailMessage))
    (req : SyncRequest) (userId : Nat) (now : Int) (db : DB) :
    DB × SyncResponse :=
  if req.method == "OPTIONS" then (db, SyncResponse.corsPreflight)
  else if !(req.method == "POST") then
    (db, SyncResponse.err 405 "Method not allowed")
  else if !(truthy req.accessToken) then
    (db, SyncResponse.err 400 "Access token required")
  else
    match getCurrentUser with
    | Except.error _ => (db, SyncResponse.err 500 "Email sync failed")
    | Except.ok graphUser =>
      match getUserEmails (graphUser.id.getD "") 50 0 with
      | Except.error _ => (db, SyncResponse.err 500 "Email sync failed")
      | Except.ok graphEmails =>
        let loopRes := syncLoop f userId db graphEmails
        let db2 := updateEmployeeLastSync loopRes.1 userId now
        (db2, SyncResponse.ok loopRes.2.length graphEmails.length)

/-! ## Task status endpoint (`src/api/tasks/[id]/status.ts`) -/

/-- Response of the task-status handler. -/
inductive TaskStatusResponse
  | corsPreflight
  | success
  | err (status : Nat) (message : String)
deriving Repr, DecidableEq

/-- The status values the endpoint accepts. -/
def validStatuses : List String := ["identified", "in_progress", "completed"]

/-- `taskStatusHandler`: CORS preflight, method check, status whitelist
check (a missing status fails the `includes` check), then
`updateTaskStatus` with no existence check on the task id. -/
def taskStatusHandler (method : String) (taskId : Nat)
    (status : Option String) (now : Int) (db : DB) : DB × TaskStatusResponse :=
  if method == "OPTIONS" then (db, TaskStatusResponse.corsPreflight)
  else if !(method == "PUT") then
    (db, TaskStatusResponse.err 405 "Method not allowed")
  else
    match status with
    | none => (db, TaskStatusResponse.err 400 "Invalid status")
    | some s =>
      if !(validStatuses.contains s) then
        (db, TaskStatusResponse.err 400 "Invalid status")
      else
        (updateTaskStatus db taskId s now, TaskStatusResponse.success)

/-! ## Sentiment aggregation (`DatabaseStorage.getSentimentAnalytics`) -/

/-- The organization an `email_analysis` row belongs to, via the left
joins `email_analysis → emails → employees`: `none` when a join partner
is missing or the employee has no organization (the SQL `WHERE
organization_id = ?` then rejects the row). -/
def rowOrganization (db : DB) (a : EmailAnalysis) : Option Nat :=
  match db.emails.find? (fun e => e.id == a.emailId) with
  | none => none
  | some e =>
    match db.employees.find? (fun emp => emp.id == e.senderId) with
    | none => none
    | some emp => emp.organizationId

/-- The `email_analysis` rows that survive the organization scoping of
`getSentimentAnalytics` (all rows when no organization filter is given). -/
def scopedAnalyses (db : DB) (organizationId : Option Nat) : List EmailAnalysis :=
  db.analyses.filter (fun a =>
    match organizationId with
    | none => true
    | some oid => rowOrganization db a == some oid)

/-- Result shape of `getSentimentAnalytics`. -/
structure SentimentCounts where
  positive : Nat
  neutral : Nat
  negative : Nat
deriving Repr, DecidableEq

/-- `DatabaseStorage.getSentimentAnalytics`: count scoped analysis rows
grouped by sentiment label, then pick up the counts of the three labels
`positive` / `neutral` / `negative` (rows with any other label are
dropped by the `forEach`). -/
def getSentimentAnalytics (db : DB) (organizationId : Option Nat) :
    SentimentCounts :=
  let rows := scopedAnalyses db organizationId
  { positive := (rows.filter (fun a => a.sentiment == "positive")).length
    neutral := (rows.filter (fun a => a.sentiment == "neutral")).length
    negative := (rows.filter (fun a => a.sentiment == "negative")).length }

/-! ## The row a successful `createEmail` inserts for a fetched message -/

/-- The `emails` row that `syncHandler` builds from a fetched message
(used to state theorems about the loop step). -/
def emailRowFor (db : DB) (userId : Nat) (m : GraphEmailMessage) : Email :=
  { id := db.nextEmailId
    messageId := m.id
    conversationId := m.conversationId
    senderId := userId
    subject := m.subject
    bodyPreview := m.bodyPreview
    receivedAt := m.receivedDateTime
    isRead := m.isRead.getD false
    importance := m.importance
    hasAttachments := m.hasAttachments.getD false }

/-- A `tasks` row without its generated primary key / audit fields. -/
structure TaskData where
  title : String
  description : String
  assignedToId : Nat
  status : String
  priority : String
  dueDate : Option Int
  confidenceScore : ℚ
  sourceEmailId : Nat
deriving Repr, DecidableEq

/-- Forget a task row's generated id / `updatedAt`. -/
def Task.data (t : Task) : TaskData :=
  { title := t.title
    description := t.description
    assignedToId := t.assignedToId
    status := t.status
    priority := t.priority
    dueDate := t.dueDate
    confidenceScore := t.confidenceScore
    sourceEmailId := t.sourceEmailId }

/-- The task row (minus generated fields) the sync loop persists for an
extracted task. -/
def taskRowData (userId emailId : Nat) (t : ExtractedTask) : TaskData :=
  { title := t.title
    description := t.description
    assignedToId := userId
    status := "identified"
    priority := t.priority
    dueDate := t.dueDate
    confidenceScore := t.confidence
    sourceEmailId := emailId }

/-! ## Helper lemmas -/

theorem mem_insertReceivedDesc {a e : Email} {l : List Email} :
    a ∈ insertReceivedDesc e l ↔ a = e ∨ a ∈ l := by
  induction l with
  | nil => simp [insertReceivedDesc]
  | cons x xs ih =>
    by_cases h : e.receivedAt ≤ x.receivedAt
    · simp [insertReceivedDesc, h, ih]
      tauto
    · simp [insertReceivedDesc, h]

theorem mem_sortReceivedDesc {a : Email} {l : List Email} :
    a ∈ sortReceivedDesc l ↔ a ∈ l := by
  induction l with
  | nil => simp [sortReceivedDesc]
  | cons x xs ih => simp [sortReceivedDesc, mem_insertReceivedDesc, ih]

theorem mem_getEmailsByEmployee {db : DB} {uid n : Nat} {e : Email}
    (h : e ∈ getEmailsByEmployee db uid n) : e ∈ db.emails := by
  unfold getEmailsByEmployee at h
  have h2 := List.take_subset _ _ h
  exact List.mem_of_mem_filter (mem_sortReceivedDesc.mp h2)

theorem persistTasks_emails (u eid : Nat) (ts : List ExtractedTask) (db : DB) :
    (persistTasks u eid db ts).emails = db.emails := by
  induction ts generalizing db with
  | nil => rfl
  | cons t ts ih =>
    by_cases h : t.confidence > 0.7 <;> simp [persistTasks, h, ih, createTask]

theorem persistTasks_analyses (u eid : Nat) (ts : List ExtractedTask) (db : DB) :
    (persistTasks u eid db ts).analyses = db.analyses := by
  induction ts generalizing db with
  | nil => rfl
  | cons t ts ih =>
    by_cases h : t.confidence > 0.7 <;> simp [persistTasks, h, ih, createTask]

theorem persistTasks_employees (u eid : Nat) (ts : List ExtractedTask) (db : DB) :
    (persistTasks u eid db ts).employees = db.employees := by
  induction ts generalizing db with
  | nil => rfl
  | cons t ts ih =>
    by_cases h : t.confidence > 0.7 <;> simp [persistTasks, h, ih, createTask]

theorem persistTasks_nextEmailId (u eid : Nat) (ts : List ExtractedTask) (db : DB) :
    (persistTasks u eid db ts).nextEmailId = db.nextEmailId := by
  induction ts generalizing db with
  | nil => rfl
  | cons t ts ih =>
    by_cases h : t.confidence > 0.7 <;> simp [persistTasks, h, ih, createTask]

theorem persistTasks_tasks_data (u eid : Nat) (ts : List ExtractedTask) (db : DB) :
    (persistTasks u eid db ts).tasks.map Task.data =
      db.tasks.map Task.data ++
        (ts.filter (fun t => decide (t.confidence > 0.7))).map (taskRowData u eid) := by
  induction ts generalizing db with
  | nil => simp [persistTasks]
  | cons t ts ih =>
    by_cases h : t.confidence > 0.7
    · simp [persistTasks, h, ih, createTask, Task.data, taskRowData]
    · simp [persistTasks, h, ih]

theorem aiPhase_emails (f : SyncFaults) (u : Nat) (m : GraphEmailMessage)
    (db1 : DB) (email : Email) :
    (aiPhase f u m db1 email).emails = db1.emails := by
  unfold aiPhase
  cases f.annotate m with
  | error e => rfl
  | ok r =>
    by_cases hf : f.createAnalysisFails m
    · simp [hf]
    · simp only [hf, Bool.false_eq_true, if_false]
      unfold createEmailAnalysis
      by_cases hu : db1.analyses.any (fun a => a.emailId == email.id)
      · simp [hu]
      · simp [hu, persistTasks_emails]

theorem aiPhase_employees (f : SyncFaults) (u : Nat) (m : GraphEmailMessage)
    (db1 : DB) (email : Email) :
    (aiPhase f u m db1 email).employees = db1.employees := by
  unfold aiPhase
  cases f.annotate m with
  | error e => rfl
  | ok r =>
    by_cases hf : f.createAnalysisFails m
    · simp [hf]
    · simp only [hf, Bool.false_eq_true, if_false]
      unfold createEmailAnalysis
      by_cases hu : db1.analyses.any (fun a => a.emailId == email.id)
      · simp [hu]
      · simp [hu, persistTasks_employees]

theorem aiPhase_nextEmailId (f : SyncFaults) (u : Nat) (m : GraphEmailMessage)
    (db1 : DB) (email : Email) :
    (aiPhase f u m db1 email).nextEmailId = db1.nextEmailId := by
  unfold aiPhase
  cases f.annotate m with
  | error e => rfl
  | ok r =>
    by_cases hf : f.createAnalysisFails m
    · simp [hf]
    · simp only [hf, Bool.false_eq_true, if_false]
      unfold createEmailAnalysis
      by_cases hu : db1.analyses.any (fun a => a.emailId == email.id)
      · simp [hu]
      · simp [hu, persistTasks_nextEmailId]

theorem processGraphEmail_skip (f : SyncFaults) (u : Nat) (db : DB)
    (m : GraphEmailMessage)
    (h : (getEmailsByEmployee db u 1).any (fun e => e.messageId == m.id) = true) :
    processGraphEmail f u db m = (db, none) := by
  unfold processGraphEmail
  simp [h]

theorem processGraphEmail_of_mem (f : SyncFaults) (u : Nat) (db : DB)
    (m : GraphEmailMessage) (h : m.id ∈ db.messageIds) :
    processGraphEmail f u db m = (db, none) := by
  have hany : db.emails.any (fun e => e.messageId == m.id) = true := by
    rw [List.any_eq_true]
    obtain ⟨e, he, heq⟩ := List.mem_map.mp h
    exact ⟨e, he, by simp [heq]⟩
  unfold processGraphEmail
  by_cases hex : (getEmailsByEmployee db u 1).any (fun e => e.messageId == m.id) = true
  · simp [hex]
  · by_cases hf : f.createEmailFails m = true
    · simp [hex, hf]
    · simp only [hex, hf, Bool.false_eq_true, if_false]
      unfold createEmail
      simp [hany]

theorem processGraphEmail_of_not_mem (f : SyncFaults) (u : Nat) (db : DB)
    (m : GraphEmailMessage) (hmem : m.id ∉ db.messageIds)
    (hf : f.createEmailFails m = false) :
    ∃ db', processGraphEmail f u db m = (db', some (emailRowFor db u m)) ∧
      db'.emails = db.emails ++ [emailRowFor db u m] ∧
      db'.employees = db.employees ∧
      db'.nextEmailId = db.nextEmailId + 1 := by
  have hany : db.emails.any (fun e => e.messageId == m.id) = false := by
    rw [List.any_eq_false]
    intro e he
    simp only [beq_iff_eq]
    intro heq
    exact hmem (List.mem_map.mpr ⟨e, he, heq⟩)
  have hex : (getEmailsByEmployee db u 1).any (fun e => e.messageId == m.id) = false := by
    rw [List.any_eq_false]
    intro e he
    simp only [beq_iff_eq]
    intro heq
    exact hmem (List.mem_map.mpr ⟨e, mem_getEmailsByEmployee he, heq⟩)
  unfold processGraphEmail
  simp only [hex, hf, Bool.false_eq_true, if_false]
  unfold createEmail
  simp only [hany, Bool.false_eq_true, if_false]
  by_cases ht : (truthy m.bodyPreview && truthy m.subject) = true
  · simp only [ht, if_true]
    exact ⟨_, rfl, by simp [aiPhase_emails, emailRowFor],
      by simp [aiPhase_employees], by simp [aiPhase_nextEmailId]⟩
  · simp only [ht, if_false]
    exact ⟨_, rfl, rfl, rfl, rfl⟩

theorem processGraphEmail_fault (f : SyncFaults) (u : Nat) (db : DB)
    (m : GraphEmailMessage) (hf : f.createEmailFails m = true) :
    processGraphEmail f u db m = (db, none) := by
  unfold processGraphEmail
  by_cases hex : (getEmailsByEmployee db u 1).any (fun e => e.messageId == m.id) = true
  · simp [hex]
  · simp [hex, hf]

theorem syncLoop_cons (f : SyncFaults) (u : Nat) (db : DB)
    (m : GraphEmailMessage) (rest : List GraphEmailMessage) :
    syncLoop f u db (m :: rest) =
      ((syncLoop f u (processGraphEmail f u db m).1 rest).1,
       (match (processGraphEmail f u db m).2 with
        | some e => [e]
        | none => []) ++ (syncLoop f u (processGraphEmail f u db m).1 rest).2) := rfl

theorem syncLoop_length_le (f : SyncFaults) (u : Nat) (db : DB)
    (ms : List GraphEmailMessage) :
    (syncLoop f u db ms).2.length ≤ ms.length := by
  induction ms generalizing db with
  | nil => simp [syncLoop]
  | cons m rest ih =>
    rw [syncLoop_cons]
    cases (processGraphEmail f u db m).2 with
    | none => simpa using Nat.le_succ_of_le (ih _)
    | some e => simpa using ih _

theorem syncLoop_nodup (f : SyncFaults) (u : Nat) (db : DB)
    (ms : List GraphEmailMessage) (h : db.messageIds.Nodup) :
    ((syncLoop f u db ms).1).messageIds.Nodup := by
  induction ms generalizing db with
  | nil => simpa [syncLoop]
  | cons m rest ih =>
    rw [syncLoop_cons]
    by_cases hmem : m.id ∈ db.messageIds
    · rw [processGraphEmail_of_mem f u db m hmem]
      exact ih db h
    · by_cases hf : f.createEmailFails m = true
      · rw [processGraphEmail_fault f u db m hf]
        exact ih db h
      · obtain ⟨db', heq, hemails, -, -⟩ :=
          processGraphEmail_of_not_mem f u db m hmem (by simpa using hf)
        rw [heq]
        refine ih db' ?_
        have : db'.messageIds = db.messageIds ++ [m.id] := by
          unfold DB.messageIds
          rw [hemails, List.map_append]
          rfl
        rw [this]
        simp [List.nodup_append, h, hmem]

theorem aiPhase_analyses_mem (f : SyncFaults) (u : Nat) (m : GraphEmailMessage)
    (db1 : DB) (email : Email) (a : EmailAnalysis)
    (h : a ∈ (aiPhase f u m db1 email).analyses) :
    a ∈ db1.analyses ∨
      ∃ r, f.annotate m = Except.ok r ∧ a.sentiment = storedSentiment r.sentiment := by
  unfold aiPhase at h
  cases hann : f.annotate m with
  | error e => rw [hann] at h; exact Or.inl h
  | ok r =>
    rw [hann] at h
    by_cases hf : f.createAnalysisFails m
    · simp only [hf, if_true] at h
      exact Or.inl h
    · simp only [hf, Bool.false_eq_true, if_false] at h
      unfold createEmailAnalysis at h
      by_cases hu : db1.analyses.any (fun x => x.emailId == email.id)
      · simp only [hu, if_true] at h
        exact Or.inl h
      · simp only [hu, Bool.false_eq_true, if_false, persistTasks_analyses] at h
        rcases List.mem_append.mp h with h1 | h1
        · exact Or.inl h1
        · refine Or.inr ⟨r, rfl, ?_⟩
          simp only [List.mem_singleton] at h1
          rw [h1]

theorem processGraphEmail_analyses_mem (f : SyncFaults) (u : Nat) (db : DB)
    (m : GraphEmailMessage) (a : EmailAnalysis)
    (h : a ∈ (processGraphEmail f u db m).1.analyses) :
    a ∈ db.analyses ∨
      ∃ r, f.annotate m = Except.ok r ∧ a.sentiment = storedSentiment r.sentiment := by
  unfold processGraphEmail at h
  by_cases hex : (getEmailsByEmployee db u 1).any (fun e => e.messageId == m.id) = true
  · simp only [hex, if_true] at h
    exact Or.inl h
  · by_cases hf : f.createEmailFails m = true
    · simp only [hex, hf, Bool.not_eq_true, if_true, if_false] at h
      exact Or.inl h
    · simp only [hex, hf, Bool.not_eq_true, if_false] at h
      unfold createEmail at h
      by_cases hany : db.emails.any (fun e => e.messageId == m.id) = true
      · simp only [hany, if_true] at h
        exact Or.inl h
      · simp only [hany, Bool.not_eq_true, if_false] at h
        by_cases ht : (truthy m.bodyPreview && truthy m.subject) = true
        · simp only [ht, if_true] at h
          have h2 := aiPhase_analyses_mem f u m _ _ a h
          simpa using h2
        · simp only [ht, Bool.not_eq_true, if_false] at h
          exact Or.inl h

theorem syncHandler_ok (f : SyncFaults)
    (getCurrentUser : Except Unit GraphUser)
    (getUserEmails : String → Nat → Nat → Except Unit (List GraphEmailMessage))
    (req : SyncRequest) (u : Nat) (now : Int) (db : DB)
    (gu : GraphUser) (msgs : List GraphEmailMessage)
    (hmethod : req.method = "POST")
    (htok : truthy req.accessToken = true)
    (hcu : getCurrentUser = Except.ok gu)
    (hge : getUserEmails (gu.id.getD "") 50 0 = Except.ok msgs) :
    (syncHandler f getCurrentUser getUserEmails req u now db).2 =
      SyncResponse.ok (syncLoop f u db msgs).2.length msgs.length := by
  unfold syncHandler
  rw [hmethod, hcu]
  simp [htok, hge]

theorem updateTaskStatus_not_found (db : DB) (taskId : Nat) (s : String) (now : Int)
    (h : ∀ t ∈ db.tasks, t.id ≠ taskId) :
    updateTaskStatus db taskId s now = db := by
  unfold updateTaskStatus
  have hmap : ∀ (l : List Task), (∀ t ∈ l, t.id ≠ taskId) →
      l.map (fun t => if t.id == taskId then { t with status := s, updatedAt := now } else t) = l := by
    intro l
    induction l with
    | nil => intro _; rfl
    | cons t ts ih =>
      intro hl
      have ht : t.id ≠ taskId := hl t (List.mem_cons_self t ts)
      have htb : (t.id == taskId) = false := by simp [ht]
      simp only [List.map_cons, htb, Bool.false_eq_true, if_false]
      rw [ih (fun x hx => hl x (List.mem_cons_of_mem t hx))]
  rw [hmap db.tasks h]

theorem sentiment_filter_count (l : List EmailAnalysis)
    (h : ∀ a ∈ l, a.sentiment = "positive" ∨ a.sentiment = "neutral" ∨
        a.sentiment = "negative") :
    (l.filter (fun a => a.sentiment == "positive")).length +
      (l.filter (fun a => a.sentiment == "neutral")).length +
      (l.filter (fun a => a.sentiment == "negative")).length = l.length := by
  induction l with
  | nil => rfl
  | cons a l ih =>
    have hl := ih (fun x hx => h x (List.mem_cons_of_mem a hx))
    rcases h a (List.mem_cons_self a l) with h1 | h1 | h1 <;>
      simp [List.filter_cons, h1] <;> omega

/-! ## Concrete sample data (used by the witness theorems) -/

/-- A sample employee (the authenticated caller, organization 3). -/
def patEmployee : Employee := { id := 7, organizationId := some 3, email := "pat@example.com" }

/-- Fetched message A (newest). -/
def msgA : GraphEmailMessage :=
  { id := "MSG-A", subject := some "quarterly report",
    bodyPreview := some "please review the numbers", receivedDateTime := 30 }

/-- Fetched message B; its id matches the stored email `storedB`. -/
def msgB : GraphEmailMessage :=
  { id := "MSG-B", subject := some "meeting minutes",
    bodyPreview := some "minutes attached", receivedDateTime := 20 }

/-- Fetched message C (oldest). -/
def msgC : GraphEmailMessage :=
  { id := "MSG-C", subject := some "lunch",
    bodyPreview := some "noon works", receivedDateTime := 10 }

/-- A fetched message with no subject (annotation is skipped for it). -/
def msgNoSubject : GraphEmailMessage :=
  { id := "MSG-D", bodyPreview := some "body only", receivedDateTime := 5 }

/-- The stored email with the same `messageId` as `msgB`. -/
def storedB : Email := { id := 1, messageId := "MSG-B", senderId := 7, receivedAt := 20 }

/-- A sample database: one employee, one stored email. -/
def sampleDB : DB := { employees := [patEmployee], emails := [storedB], nextEmailId := 2 }

/-- Fault model: every LLM call throws. -/
def annotateThrows : SyncFaults := { annotate := fun _ => Except.error () }

/-- Fault model: the LLM always answers with sentiment `urgent` and no
extracted tasks. -/
def annotateUrgent : SyncFaults :=
  { annotate := fun _ =>
      Except.ok { sentiment := Sentiment.urgent, urgencyScore := 9, summary := "s" } }

/-- An extraction result with one task above and one below the 0.7
confidence threshold (`mkRat 9 10 = 0.9`, `mkRat 1 2 = 0.5`). -/
def extractionTwo : TaskExtractionResult :=
  { tasks := [ { title := "send report", confidence := mkRat 9 10 },
               { title := "maybe lunch", confidence := mkRat 1 2 } ],
    sentiment := Sentiment.positive }

/-- Fault model: the LLM always answers `extractionTwo`. -/
def annotateTwoTasks : SyncFaults := { annotate := fun _ => Except.ok extractionTwo }

/-- A well-formed POST request. -/
def okReq : SyncRequest := { method := "POST", accessToken := some "token" }

/-- A Graph-user oracle. -/
def patGraphUser : GraphUser := { id := some "graph-7", mail := some "pat@example.com" }

/-- A message-fetch oracle that honors the `top` parameter on a fixed
mailbox [msgA, msgB, msgC]. -/
def geFixed : String → Nat → Nat → Except Unit (List GraphEmailMessage) :=
  fun _ top _ => Except.ok (([msgA, msgB, msgC]).take top)

/-! ## Claims -/

/-- Claim C1: a fetched message whose `messageId` matches the caller's
single most-recent stored email is skipped by the pre-check (which
consults only that one record), and after any run of the sync loop the
`messageId` column remains duplicate-free: the weak pre-check is backed
by the `unique` constraint on `emails.message_id`, whose violation makes
the insert fail and be swallowed, so no duplicate Email row is ever
created for an already-present `messageId`. -/
theorem sync_messageId_globally_unique :
    (∀ (f : SyncFaults) (u : Nat) (db : DB) (m : GraphEmailMessage),
      (getEmailsByEmployee db u 1).any (fun e => e.messageId == m.id) = true →
      processGraphEmail f u db m = (db, none)) ∧
    (∀ (f : SyncFaults) (u : Nat) (db : DB) (ms : List GraphEmailMessage),
      db.messageIds.Nodup → ((syncLoop f u db ms).1).messageIds.Nodup) :=
  ⟨processGraphEmail_skip, syncLoop_nodup⟩

/-- Witness for C1 at concrete inputs: the stored `MSG-B` is the
caller's most recent email, so fetching `msgB` again changes nothing,
and a full sync over [msgA, msgB, msgC] keeps the messageId column
duplicate-free. -/
theorem sync_messageId_globally_unique_witness :
    processGraphEmail annotateThrows 7 sampleDB msgB = (sampleDB, none) ∧
    ((syncLoop annotateThrows 7 sampleDB [msgA, msgB, msgC]).1).messageIds.Nodup :=
  ⟨sync_messageId_globally_unique.1 annotateThrows 7 sampleDB msgB (by decide),
   sync_messageId_globally_unique.2 annotateThrows 7 sampleDB [msgA, msgB, msgC]
     (by decide)⟩

/-- Claim C2: a sync call that fetches three messages where the second
one's `messageId` already exists in storage, and whose first and third
messages are new and process without error, responds with
`processedCount = 2, totalFetched = 3`: the duplicate is dropped either
by the pre-check or by the swallowed unique-constraint failure of its
insert, while messages 1 and 3 are inserted and counted. -/
theorem sync_example_processed_two_of_three (f : SyncFaults)
    (ge : String → Nat → Nat → Except Unit (List GraphEmailMessage))
    (gu : GraphUser) (req : SyncRequest) (u : Nat) (now : Int) (db : DB)
    (m1 m2 m3 : GraphEmailMessage)
    (hmethod : req.method = "POST")
    (htok : truthy req.accessToken = true)
    (hfetch : ge (gu.id.getD "") 50 0 = Except.ok [m1, m2, m3])
    (hdup : m2.id ∈ db.messageIds)
    (hnew1 : m1.id ∉ db.messageIds)
    (hnew3 : m3.id ∉ db.messageIds)
    (hne : m3.id ≠ m1.id)
    (hf1 : f.createEmailFails m1 = false)
    (hf3 : f.createEmailFails m3 = false) :
    (syncHandler f (Except.ok gu) ge req u now db).2 = SyncResponse.ok 2 3 := by
  obtain ⟨db1, h1, hem1, -, -⟩ := processGraphEmail_of_not_mem f u db m1 hnew1 hf1
  have hids1 : db1.messageIds = db.messageIds ++ [m1.id] := by
    unfold DB.messageIds
    rw [hem1, List.map_append]
    rfl
  have h2 : processGraphEmail f u db1 m2 = (db1, none) :=
    processGraphEmail_of_mem f u db1 m2
      (by rw [hids1]; exact List.mem_append_left _ hdup)
  have hmem3 : m3.id ∉ db1.messageIds := by
    rw [hids1]
    simp [hnew3, hne]
  obtain ⟨db2, h3, -, -, -⟩ := processGraphEmail_of_not_mem f u db1 m3 hmem3 hf3
  have hloop : (syncLoop f u db [m1, m2, m3]).2.length = 2 := by
    simp [syncLoop_cons, syncLoop, h1, h2, h3]
  rw [syncHandler_ok f (Except.ok gu) ge req u now db gu [m1, m2, m3]
    hmethod htok rfl hfetch, hloop]
  rfl

/-- Witness for C2 at concrete inputs: syncing the mailbox
[msgA, msgB, msgC] against a store that already holds `MSG-B` yields
`processedCount = 2, totalFetched = 3`. -/
theorem sync_example_processed_two_of_three_witness :
    (syncHandler annotateThrows (Except.ok patGraphUser) geFixed okReq 7 99
      sampleDB).2 = SyncResponse.ok 2 3 :=
  sync_example_processed_two_of_three annotateThrows geFixed patGraphUser okReq 7 99
    sampleDB msgA msgB msgC rfl (by decide) rfl (by decide) (by decide) (by decide)
    (by decide) rfl rfl

theorem any_messageId_eq_false {db : DB} {mid : String}
    (hmem : mid ∉ db.messageIds) :
    db.emails.any (fun e => e.messageId == mid) = false := by
  rw [List.any_eq_false]
  intro e he
  simp only [beq_iff_eq]
  intro heq
  exact hmem (List.mem_map.mpr ⟨e, he, heq⟩)

theorem precheck_eq_false {db : DB} {u : Nat} {mid : String}
    (hmem : mid ∉ db.messageIds) :
    (getEmailsByEmployee db u 1).any (fun e => e.messageId == mid) = false := by
  rw [List.any_eq_false]
  intro e he
  simp only [beq_iff_eq]
  intro heq
  exact hmem (List.mem_map.mpr ⟨e, mem_getEmailsByEmployee he, heq⟩)

/-- Claim C3: a thrown LLM call for one message is caught by the inner
`catch`: the Email row created just before stays stored, no
EmailAnalysis and no Task rows are added, the message is still counted
(`some` is pushed onto `processedEmails`), and the loop continues over
the remaining messages unchanged. -/
theorem llm_failure_is_isolated (f : SyncFaults) (u : Nat) (db : DB)
    (m : GraphEmailMessage)
    (hann : f.annotate m = Except.error ())
    (hf : f.createEmailFails m = false)
    (hbody : truthy m.bodyPreview = true)
    (hsubj : truthy m.subject = true)
    (hmem : m.id ∉ db.messageIds) :
    processGraphEmail f u db m =
      ({ db with emails := db.emails ++ [emailRowFor db u m],
                 nextEmailId := db.nextEmailId + 1 }, some (emailRowFor db u m)) ∧
    (processGraphEmail f u db m).1.analyses = db.analyses ∧
    (processGraphEmail f u db m).1.tasks = db.tasks ∧
    ∀ rest, syncLoop f u db (m :: rest) =
      ((syncLoop f u (processGraphEmail f u db m).1 rest).1,
       emailRowFor db u m :: (syncLoop f u (processGraphEmail f u db m).1 rest).2) := by
  have key : processGraphEmail f u db m =
      ({ db with emails := db.emails ++ [emailRowFor db u m],
                 nextEmailId := db.nextEmailId + 1 }, some (emailRowFor db u m)) := by
    unfold processGraphEmail
    simp only [precheck_eq_false (u := u) hmem, hf, Bool.false_eq_true, if_false]
    unfold createEmail
    simp only [any_messageId_eq_false hmem, Bool.false_eq_true, if_false]
    have ht : (truthy m.bodyPreview && truthy m.subject) = true := by
      rw [hbody, hsubj]; rfl
    simp only [ht, if_true]
    simp [aiPhase, hann, emailRowFor]
  refine ⟨key, by rw [key], by rw [key], ?_⟩
  intro rest
  rw [syncLoop_cons]
  simp [key]

/-- Witness for C3 at concrete inputs: with an always-throwing LLM, the
new message `msgA` is stored with no analysis, counted, and the loop
then continues over `[msgC]`. -/
theorem llm_failure_is_isolated_witness :
    (processGraphEmail annotateThrows 7 sampleDB msgA).1.analyses =
      sampleDB.analyses ∧
    (processGraphEmail annotateThrows 7 sampleDB msgA).2 =
      some (emailRowFor sampleDB 7 msgA) ∧
    syncLoop annotateThrows 7 sampleDB [msgA, msgC] =
      ((syncLoop annotateThrows 7
          (processGraphEmail annotateThrows 7 sampleDB msgA).1 [msgC]).1,
       emailRowFor sampleDB 7 msgA ::
         (syncLoop annotateThrows 7
           (processGraphEmail annotateThrows 7 sampleDB msgA).1 [msgC]).2) := by
  obtain ⟨h1, h2, h3, h4⟩ := llm_failure_is_isolated annotateThrows 7 sampleDB msgA
    rfl rfl (by decide) (by decide) (by decide)
  exact ⟨h2, by rw [h1], h4 [msgC]⟩

/-- Claim C9: a fetched message whose subject or bodyPreview is missing
or empty skips the annotation block entirely (the result does not depend
on the LLM oracle at all), creates no analysis and no tasks, but the
Email row is still inserted and the message is still counted. -/
theorem empty_subject_skips_annotate (f : SyncFaults) (u : Nat) (db : DB)
    (m : GraphEmailMessage)
    (hfalsy : (truthy m.bodyPreview && truthy m.subject) = false)
    (hmem : m.id ∉ db.messageIds)
    (hf : f.createEmailFails m = false) :
    processGraphEmail f u db m =
      ({ db with emails := db.emails ++ [emailRowFor db u m],
                 nextEmailId := db.nextEmailId + 1 }, some (emailRowFor db u m)) ∧
    ∀ a2, processGraphEmail { f with annotate := a2 } u db m =
      processGraphEmail f u db m := by
  have key : ∀ g : SyncFaults, g.createEmailFails m = false →
      processGraphEmail g u db m =
        ({ db with emails := db.emails ++ [emailRowFor db u m],
                   nextEmailId := db.nextEmailId + 1 }, some (emailRowFor db u m)) := by
    intro g hg
    unfold processGraphEmail
    simp only [precheck_eq_false (u := u) hmem, hg, Bool.false_eq_true, if_false]
    unfold createEmail
    simp only [any_messageId_eq_false hmem, Bool.false_eq_true, if_false]
    simp [hfalsy, emailRowFor]
  exact ⟨key f hf, fun a2 => by rw [key { f with annotate := a2 } hf, key f hf]⟩

/-- Witness for C9 at concrete inputs: `msgNoSubject` (no subject) is
stored and counted with the always-throwing LLM oracle, and swapping in
the always-urgent oracle changes nothing. -/
theorem empty_subject_skips_annotate_witness :
    processGraphEmail annotateThrows 7 sampleDB msgNoSubject =
      ({ sampleDB with
          emails := sampleDB.emails ++ [emailRowFor sampleDB 7 msgNoSubject],
          nextEmailId := sampleDB.nextEmailId + 1 },
       some (emailRowFor sampleDB 7 msgNoSubject)) ∧
    processGraphEmail
        { annotateThrows with annotate := annotateUrgent.annotate } 7 sampleDB
        msgNoSubject =
      processGraphEmail annotateThrows 7 sampleDB msgNoSubject := by
  obtain ⟨h1, h2⟩ := empty_subject_skips_annotate annotateThrows 7 sampleDB
    msgNoSubject (by decide) (by decide) rfl
  exact ⟨h1, h2 annotateUrgent.annotate⟩

theorem aiPhase_ok_tasks (f : SyncFaults) (u : Nat) (m : GraphEmailMessage)
    (db1 : DB) (email : Email) (r : TaskExtractionResult)
    (hann : f.annotate m = Except.ok r)
    (haf : f.createAnalysisFails m = false)
    (hfresh1 : db1.analyses.any (fun a => a.emailId == email.id) = false) :
    (aiPhase f u m db1 email).tasks.map Task.data =
      db1.tasks.map Task.data ++
        (r.tasks.filter (fun t => decide (t.confidence > 0.7))).map
          (taskRowData u email.id) := by
  simp [aiPhase, hann, haf, createEmailAnalysis, hfresh1, persistTasks_tasks_data]

/-- Claim C5: when annotation succeeds and nothing else fails, every
extracted task with confidence ≤ 0.7 produces no Task row, and every
extracted task with confidence > 0.7 produces exactly one Task row whose
`sourceEmailId` is the id of the Email just created: the rows appended
to `tasks` are exactly the high-confidence extractions, in order. -/
theorem task_confidence_gate (f : SyncFaults) (u : Nat) (db : DB)
    (m : GraphEmailMessage) (r : TaskExtractionResult)
    (hann : f.annotate m = Except.ok r)
    (hf : f.createEmailFails m = false)
    (haf : f.createAnalysisFails m = false)
    (hbody : truthy m.bodyPreview = true)
    (hsubj : truthy m.subject = true)
    (hmem : m.id ∉ db.messageIds)
    (hfresh : db.analyses.any (fun a => a.emailId == db.nextEmailId) = false) :
    ∃ db', processGraphEmail f u db m = (db', some (emailRowFor db u m)) ∧
      db'.tasks.map Task.data = db.tasks.map Task.data ++
        (r.tasks.filter (fun t => decide (t.confidence > 0.7))).map
          (taskRowData u db.nextEmailId) ∧
      ∀ t : ExtractedTask,
        (taskRowData u db.nextEmailId t).sourceEmailId = db.nextEmailId := by
  have ht : (truthy m.bodyPreview && truthy m.subject) = true := by
    rw [hbody, hsubj]; rfl
  have key : processGraphEmail f u db m =
      (aiPhase f u m
        { db with emails := db.emails ++ [emailRowFor db u m],
                  nextEmailId := db.nextEmailId + 1 } (emailRowFor db u m),
       some (emailRowFor db u m)) := by
    unfold processGraphEmail
    simp only [precheck_eq_false (u := u) hmem, hf, Bool.false_eq_true, if_false]
    unfold createEmail
    simp only [any_messageId_eq_false hmem, Bool.false_eq_true, if_false]
    simp [ht, emailRowFor]
  refine ⟨_, key, ?_, fun t => rfl⟩
  rw [aiPhase_ok_tasks f u m _ _ r hann haf (by simpa using hfresh)]
  simp [emailRowFor]

/-- Witness for C5 at concrete inputs: syncing `msgA` with the oracle
that extracts one task at confidence 0.9 and one at 0.5 appends exactly
the 0.9 task, pointing at the new email's id (2). -/
theorem task_confidence_gate_witness :
    ∃ db', processGraphEmail annotateTwoTasks 7 sampleDB msgA =
        (db', some (emailRowFor sampleDB 7 msgA)) ∧
      db'.tasks.map Task.data = sampleDB.tasks.map Task.data ++
        (extractionTwo.tasks.filter (fun t => decide (t.confidence > 0.7))).map
          (taskRowData 7 sampleDB.nextEmailId) ∧
      ∀ t : ExtractedTask,
        (taskRowData 7 sampleDB.nextEmailId t).sourceEmailId =
          sampleDB.nextEmailId :=
  task_confidence_gate annotateTwoTasks 7 sampleDB msgA extractionTwo rfl rfl rfl
    (by decide) (by decide) (by decide) rfl

/-- Claim C8: the handler persists `'neutral'` whenever the annotation
result's sentiment is `'urgent'`, and in general the persisted
`EmailAnalysis.sentiment` of any row added by the loop step is
`storedSentiment` of the annotated sentiment, which is always one of
`positive`, `negative`, `neutral`. -/
theorem urgent_sentiment_remapped :
    (∀ s : Sentiment, storedSentiment s = "positive" ∨
      storedSentiment s = "negative" ∨ storedSentiment s = "neutral") ∧
    storedSentiment Sentiment.urgent = "neutral" ∧
    (∀ (f : SyncFaults) (u : Nat) (db : DB) (m : GraphEmailMessage)
        (a : EmailAnalysis),
      a ∈ (processGraphEmail f u db m).1.analyses →
      a ∈ db.analyses ∨
        ∃ r, f.annotate m = Except.ok r ∧
          a.sentiment = storedSentiment r.sentiment) := by
  refine ⟨?_, rfl, processGraphEmail_analyses_mem⟩
  intro s
  cases s <;> simp [storedSentiment, Sentiment.label]

/-- The analysis row the loop persists for `msgA` under the
always-urgent oracle on `sampleDB`: note the stored sentiment is
`neutral`. -/
def urgentRow : EmailAnalysis :=
  { id := 1, emailId := 2, sentiment := "neutral", urgencyScore := 9,
    topics := [], actionItems := [], aiSummary := "s", processingVersion := "1.0" }

/-- Witness for C8 at concrete inputs: the row actually stored for
`msgA` under the always-urgent oracle is accounted for by the theorem —
it is new and its sentiment is `storedSentiment` of `urgent`. -/
theorem urgent_sentiment_remapped_witness :
    urgentRow ∈ sampleDB.analyses ∨
      ∃ r, annotateUrgent.annotate msgA = Except.ok r ∧
        urgentRow.sentiment = storedSentiment r.sentiment :=
  urgent_sentiment_remapped.2.2 annotateUrgent 7 sampleDB msgA urgentRow (by decide)

/-- Claim C4: for a POST sync request, the call succeeds — returning the
two counters — whenever the token is present and both Graph fetches
succeed, for EVERY per-message fault assignment; and an error response
can only arise from a missing access token, a failed `getCurrentUser`,
or a failed `getUserEmails`. -/
theorem sync_fails_only_on_validation_or_fetch (f : SyncFaults)
    (cu : Except Unit GraphUser)
    (ge : String → Nat → Nat → Except Unit (List GraphEmailMessage))
    (req : SyncRequest) (u : Nat) (now : Int) (db : DB)
    (hmethod : req.method = "POST") :
    (∀ gu msgs, cu = Except.ok gu →
      ge (gu.id.getD "") 50 0 = Except.ok msgs →
      truthy req.accessToken = true →
      (syncHandler f cu ge req u now db).2 =
        SyncResponse.ok (syncLoop f u db msgs).2.length msgs.length) ∧
    (∀ c msg, (syncHandler f cu ge req u now db).2 = SyncResponse.err c msg →
      truthy req.accessToken = false ∨ cu = Except.error () ∨
        ∃ gu, cu = Except.ok gu ∧
          ge (gu.id.getD "") 50 0 = Except.error ()) := by
  constructor
  · intro gu msgs hcu hge htok
    exact syncHandler_ok f cu ge req u now db gu msgs hmethod htok hcu hge
  · intro c msg herr
    by_cases htok : truthy req.accessToken = true
    · right
      cases cu with
      | error e => cases e; exact Or.inl rfl
      | ok gu =>
        right
        refine ⟨gu, rfl, ?_⟩
        cases hge : ge (gu.id.getD "") 50 0 with
        | error e => cases e; rfl
        | ok msgs =>
          rw [syncHandler_ok f (Except.ok gu) ge req u now db gu msgs hmethod
            htok rfl hge] at herr
          simp at herr
    · left
      simpa using htok

/-- Witness for C4 at concrete inputs: even with an LLM oracle that
throws on every message, the sync call succeeds. -/
theorem sync_fails_only_on_validation_or_fetch_witness :
    (syncHandler annotateThrows (Except.ok patGraphUser) geFixed okReq 7 99
        sampleDB).2 =
      SyncResponse.ok
        (syncLoop annotateThrows 7 sampleDB ([msgA, msgB, msgC].take 50)).2.length
        ([msgA, msgB, msgC].take 50).length :=
  (sync_fails_only_on_validation_or_fetch annotateThrows
      (Except.ok patGraphUser) geFixed okReq 7 99 sampleDB rfl).1
    patGraphUser ([msgA, msgB, msgC].take 50) rfl rfl (by decide)

/-- Claim C10: the handler asks the mail API for the first page only,
with `top = 50` and `skip = 0`; assuming the mail API honors the `top`
bound, every successful response satisfies
`processedCount ≤ totalFetched ≤ 50` (each message contributes at most
one entry to `processedEmails`). -/
theorem sync_counts_bounded (f : SyncFaults) (cu : Except Unit GraphUser)
    (ge : String → Nat → Nat → Except Unit (List GraphEmailMessage))
    (req : SyncRequest) (u : Nat) (now : Int) (db : DB)
    (gu : GraphUser) (msgs : List GraphEmailMessage)
    (htop : ∀ uid top skip l, ge uid top skip = Except.ok l → l.length ≤ top)
    (hmethod : req.method = "POST")
    (htok : truthy req.accessToken = true)
    (hcu : cu = Except.ok gu)
    (hge : ge (gu.id.getD "") 50 0 = Except.ok msgs) :
    ∃ p t, (syncHandler f cu ge req u now db).2 = SyncResponse.ok p t ∧
      p ≤ t ∧ t ≤ 50 :=
  ⟨(syncLoop f u db msgs).2.length, msgs.length,
    syncHandler_ok f cu ge req u now db gu msgs hmethod htok hcu hge,
    syncLoop_length_le f u db msgs, htop _ 50 0 msgs hge⟩

/-- Witness for C10 at concrete inputs: `geFixed` honors `top`, and the
response counters are within bounds. -/
theorem sync_counts_bounded_witness :
    ∃ p t, (syncHandler annotateThrows (Except.ok patGraphUser) geFixed okReq
        7 99 sampleDB).2 = SyncResponse.ok p t ∧ p ≤ t ∧ t ≤ 50 :=
  sync_counts_bounded annotateThrows (Except.ok patGraphUser) geFixed okReq 7 99
    sampleDB patGraphUser ([msgA, msgB, msgC].take 50)
    (by
      intro uid top skip l h
      have h2 : ([msgA, msgB, msgC].take top) = l := by
        simpa [geFixed] using h
      rw [← h2]
      simp [List.length_take])
    rfl (by decide) rfl rfl

/-- Claim C6: for an organization, the three sentiment counts of
`getSentimentAnalytics` sum to the number of analysis rows scoped to
that organization, given the data-model invariant that every stored
sentiment is one of the three labels (which is what the pipeline writes,
see C8). -/
theorem sentiment_counts_sum_to_total (db : DB) (oid : Nat)
    (hwf : ∀ a ∈ db.analyses, a.sentiment = "positive" ∨
      a.sentiment = "neutral" ∨ a.sentiment = "negative") :
    (getSentimentAnalytics db (some oid)).positive +
      (getSentimentAnalytics db (some oid)).neutral +
      (getSentimentAnalytics db (some oid)).negative =
      (scopedAnalyses db (some oid)).length := by
  unfold getSentimentAnalytics
  exact sentiment_filter_count _
    (fun a ha => hwf a (List.mem_of_mem_filter ha))

/-- One stored analysis row for the witness database. -/
def neutralRow : EmailAnalysis :=
  { id := 1, emailId := 1, sentiment := "neutral", urgencyScore := 5 }

/-- A database with one analyzed email in organization 3. -/
def analyticsDB : DB :=
  { employees := [patEmployee], emails := [storedB], analyses := [neutralRow],
    nextEmailId := 2, nextAnalysisId := 2 }

/-- Witness for C6 at concrete inputs. -/
theorem sentiment_counts_sum_to_total_witness :
    (getSentimentAnalytics analyticsDB (some 3)).positive +
      (getSentimentAnalytics analyticsDB (some 3)).neutral +
      (getSentimentAnalytics analyticsDB (some 3)).negative =
      (scopedAnalyses analyticsDB (some 3)).length :=
  sentiment_counts_sum_to_total analyticsDB 3 (by decide)

/-- Claim C7: a PUT with a whitelisted status for a task id that matches
no stored Task row succeeds while affecting zero rows (the database is
unchanged — no existence check is made), and a PUT with any other status
value returns a 400 error and changes nothing. -/
theorem task_status_no_existence_check (db : DB) (taskId : Nat) (s : String)
    (now : Int) (hmissing : ∀ t ∈ db.tasks, t.id ≠ taskId) :
    (validStatuses.contains s = true →
      taskStatusHandler "PUT" taskId (some s) now db =
        (db, TaskStatusResponse.success)) ∧
    (validStatuses.contains s = false →
      taskStatusHandler "PUT" taskId (some s) now db =
        (db, TaskStatusResponse.err 400 "Invalid status")) := by
  constructor
  · intro hs
    unfold taskStatusHandler
    simp [hs, updateTaskStatus_not_found db taskId s now hmissing]
    simpa using hs
  · intro hs
    unfold taskStatusHandler
    simp [hs]
    simpa using hs

/-- Witness for C7 at concrete inputs: task id 42 does not exist in
`sampleDB`; `completed` succeeds with zero rows affected, `paused` is
rejected with 400. -/
theorem task_status_no_existence_check_witness :
    taskStatusHandler "PUT" 42 (some "completed") 5 sampleDB =
      (sampleDB, TaskStatusResponse.success) ∧
    taskStatusHandler "PUT" 42 (some "paused") 5 sampleDB =
      (sampleDB, TaskStatusResponse.err 400 "Invalid status") :=
  ⟨(task_status_no_existence_check sampleDB 42 "completed" 5 (by decide)).1
      (by decide),
   (task_status_no_existence_check sampleDB 42 "paused" 5 (by decide)).2
      (by decide)⟩

end EmailMetrics
